/- Verification of the chapter segmentation and title resolution engine of
   EpubConsolidator2 (`extract_text.py`) against its specification.

   The Python source is shallowly embedded: pure string helpers become Lean
   functions on `String`/`List Char`; the BeautifulSoup document tree becomes
   an inductive `Node`; the per-book driver loop becomes a fold over an
   explicit `DriverState`.  Filesystem writes are modelled by the data that
   would be written (chapter records and the aggregate buffer). -/

import Mathlib

set_option autoImplicit false

namespace EpubConsolidator

/-! ## Python string primitives -/

/-- Whitespace characters stripped by Python's `str.strip()` (ASCII part;
    the inputs handled here are ASCII-whitespace delimited). -/
def isPySpace (c : Char) : Bool :=
  c = ' ' || c = '\t' || c = '\n' || c = '\r' || c = '\x0b' || c = '\x0c'

/-- Python `s.strip()`: remove leading and trailing whitespace. -/
def pyStrip (s : String) : String :=
  String.mk (((s.toList.dropWhile isPySpace).reverse.dropWhile isPySpace).reverse)

/-- Python `s.split('#')[0]`: the prefix of `s` before the first `'#'`
    (all of `s` when no `'#'` occurs). -/
def splitHashHead (s : String) : String :=
  String.mk (s.toList.takeWhile (fun c => c ≠ '#'))

/-- Python `s.split('/')[-1]`: the suffix of `s` after the last `'/'`
    (all of `s` when no `'/'` occurs). -/
def afterLastSlash (s : String) : String :=
  String.mk ((s.toList.reverse.takeWhile (fun c => c ≠ '/')).reverse)

/-- Python `s.rstrip("_")` on a character list: drop trailing underscores. -/
def rstripUnderscores (l : List Char) : List Char :=
  (l.reverse.dropWhile (fun c => c = '_')).reverse

/-- Python `s or d` for an optional string `s` (`None` and `""` are falsy). -/
def pyOrStr (s : Option String) (d : String) : String :=
  match s with
  | some t => if t = "" then d else t
  | none => d

/-! ## Filename sanitizer (`sanitize_filename`, lines 7–27)

The predicate `alnum` stands for Python's Unicode-aware `str.isalnum`;
all structural results hold for an arbitrary such predicate, and concrete
evaluations instantiate it with `Char.isAlphanum` (its ASCII restriction). -/

/-- `sanitize_filename(title, max_length)`: replace each non-alphanumeric
    character with `'_'`; if the result is longer than `max_length`,
    truncate to `max_length` and strip trailing underscores. -/
def sanitize_filename (alnum : Char → Bool) (title : String) (maxLength : Nat) : String :=
  let safe := title.toList.map (fun c => if alnum c then c else '_')
  if maxLength < safe.length then
    String.mk (rstripUnderscores (safe.take maxLength))
  else
    String.mk safe

/-! ## The parsed markup tree (BeautifulSoup collaborator)

A `Node` is either a text node (`NavigableString`) or an element with a tag
name, the values of its (multi-valued) `class` attribute, and its children.
BeautifulSoup compares tags structurally (same name, attributes, contents),
so structural equality on `Node` models Python `==`.  A `Tag` is always
truthy (`Tag.__bool__` returns `True`); a `NavigableString` is a `str` and
is falsy exactly when empty. -/

inductive Node where
  | text (s : String)
  | elem (tag : String) (classes : List String) (children : List Node)

mutual

/-- Structural equality of nodes: Python `==` on BeautifulSoup elements
    (same name, same attributes, same contents, recursively). -/
def Node.beq : Node → Node → Bool
  | .text s, .text t => s == t
  | .elem t₁ c₁ cs₁, .elem t₂ c₂ cs₂ => t₁ == t₂ && c₁ == c₂ && Node.beqList cs₁ cs₂
  | _, _ => false

def Node.beqList : List Node → List Node → Bool
  | [], [] => true
  | a :: as, b :: bs => Node.beq a b && Node.beqList as bs
  | _, _ => false

end

instance : BEq Node := ⟨Node.beq⟩

def Node.tagOf : Node → String
  | .text _ => ""
  | .elem t _ _ => t

def Node.childrenOf : Node → List Node
  | .text _ => []
  | .elem _ _ cs => cs

/-- Python truthiness of a BeautifulSoup node. -/
def truthy : Node → Bool
  | .text s => s ≠ ""
  | .elem _ _ _ => true

/-- Python truthiness of an `Optional[Tag]` (`None` is falsy). -/
def truthyOpt : Option Node → Bool
  | none => false
  | some n => truthy n

mutual

/-- All text-node strings below a node (the node included), in document
    order: the strings yielded by BeautifulSoup `get_text`. -/
def textsOf : Node → List String
  | .text s => [s]
  | .elem _ _ cs => textsOfList cs

def textsOfList : List Node → List String
  | [] => []
  | n :: ns => textsOf n ++ textsOfList ns

end

/-- BeautifulSoup `node.get_text(separator=' ')`: all strings joined by a
    single space. -/
def get_text_space (n : Node) : String :=
  String.intercalate " " (textsOf n)

/-- BeautifulSoup `node.get_text(strip=True)`: each string stripped, empty
    ones skipped, the rest concatenated. -/
def get_text_strip (n : Node) : String :=
  String.join (((textsOf n).map pyStrip).filter (fun s => s ≠ ""))

mutual

/-- The element descendants of each node of a list (the nodes themselves
    included), each paired with its immediate parent, in document order.
    `parent` is the parent of the listed nodes. -/
def elemsWithParentList (parent : Node) : List Node → List (Node × Node)
  | [] => []
  | n :: ns => elemsWithParentSelf parent n ++ elemsWithParentList parent ns

def elemsWithParentSelf (parent : Node) : Node → List (Node × Node)
  | .text _ => []
  | .elem t a cs =>
    (Node.elem t a cs, parent) :: elemsWithParentList (Node.elem t a cs) cs

end

/-- The element descendants of a parsed document `root` (the root object
    itself excluded, as BeautifulSoup's `descendants` does), each paired
    with its immediate parent (`find_parent()`), in document order. -/
def descElemsWithParent (root : Node) : List (Node × Node) :=
  match root with
  | .text _ => []
  | .elem t a cs => elemsWithParentList (Node.elem t a cs) cs

/-- The element descendants of `root` in document order. -/
def descElems (root : Node) : List Node :=
  (descElemsWithParent root).map Prod.fst

mutual

/-- BeautifulSoup `find` over a children list: first element, in document
    order (preorder), satisfying `p`. -/
def findElemList (p : Node → Bool) : List Node → Option Node
  | [] => none
  | n :: ns =>
    match findElemSelf p n with
    | some e => some e
    | none => findElemList p ns

def findElemSelf (p : Node → Bool) : Node → Option Node
  | .text _ => none
  | .elem t a cs =>
    if p (Node.elem t a cs) then some (Node.elem t a cs) else findElemList p cs

end

/-- BeautifulSoup `root.find(...)` with match predicate `p`: first matching
    element among the descendants of `root`, in document order. -/
def soup_find (p : Node → Bool) (root : Node) : Option Node :=
  match root with
  | .text _ => none
  | .elem _ _ cs => findElemList p cs

/-- Match predicate of `soup.find(['h1', 'h2', 'h3', 'h4'])`-style calls:
    the element's tag is one of `tags`. -/
def matchesTags (tags : List String) (n : Node) : Bool :=
  match n with
  | .text _ => false
  | .elem t _ _ => tags.contains t

/-- Match predicate of `soup.find(tag, \x7b'class': cls\x7d)`: the element has
    tag `tag` and `cls` among its `class` attribute values. -/
def matchesTagClass (tag cls : String) (n : Node) : Bool :=
  match n with
  | .text _ => false
  | .elem t classes _ => t == tag && classes.contains cls

/-! ## Title resolver (`extract_text_from_epub`, lines 53–82, and
    `is_likely_title`, lines 124–135) -/

/-- The heading tags probed by `soup.find(['h1', 'h2', 'h3', 'h4'])`. -/
def headingTags : List String := ["h1", "h2", "h3", "h4"]

/-- Line 59: `soup.find(['h1', 'h2', 'h3', 'h4'])`. -/
def findHeading (root : Node) : Option Node :=
  soup_find (matchesTags headingTags) root

/-- Python `x or y` on optional tags: `x` unless it is falsy
    (`None` or an empty tag). -/
def pyOrTag (x y : Option Node) : Option Node :=
  if truthyOpt x then x else y

/-- Lines 62–64: `soup.find('p', class 'title') or
    soup.find('div', class 'chapter-title') or
    soup.find('span', class 'chapter-title')`. -/
def findTitleClass (root : Node) : Option Node :=
  pyOrTag (soup_find (matchesTagClass "p" "title") root)
    (pyOrTag (soup_find (matchesTagClass "div" "chapter-title") root)
      (soup_find (matchesTagClass "span" "chapter-title") root))

/-- Line 130: the parent tags under which an `<em>` counts as a title. -/
def likelyTitleParents : List String := ["h1", "h2", "h3", "div", "header", "title", "nav"]

/-- `is_likely_title(em_element)` (lines 124–135).  `parent` is the
    element's immediate parent (`em_element.find_parent()`); the
    first-child test `em_element == em_element.find_parent().contents[0]`
    is Python's structural tag equality against the parent's first content
    node (on an element with no contents the Python code would raise,
    which cannot happen for the parent of a found `<em>`; the model
    returns `false` there). -/
def is_likely_title (em parent : Node) : Bool :=
  if 5 < (get_text_strip em).length then
    if likelyTitleParents.contains parent.tagOf then true
    else if parent.childrenOf.head? == some em then true
    else false
  else false

/-- Lines 68–73: `soup.find_all('em')` in document order, each with its
    immediate parent. -/
def em_tags (root : Node) : List (Node × Node) :=
  (descElemsWithParent root).filter (fun ep => ep.1.tagOf == "em")

/-- Lines 68–73: the first `<em>` in document order that `is_likely_title`
    accepts, if any. -/
def findLikelyEm (root : Node) : Option (Node × Node) :=
  (em_tags root).find? (fun ep => is_likely_title ep.1 ep.2)

/-- The value of the `chapter_title` variable after lines 58–73: the
    heading `find` if truthy, else the class-based `or`-chain if truthy,
    else the first likely `<em>` if any, else whatever falsy value the
    variable last held. -/
def chapterTitleVar (root : Node) : Option Node :=
  let ct₁ := findHeading root
  let ct₂ := if truthyOpt ct₁ then ct₁ else findTitleClass root
  if truthyOpt ct₂ then ct₂
  else
    match findLikelyEm root with
    | some ep => some ep.1
    | none => ct₂

/-! ## Navigation title index (`extract_titles_from_nav`, lines 112–122) -/

/-- One `navPoint` entry of a navigation document, as exposed by the
    markup collaborator: its `playOrder` attribute (retrieved by the code
    but never used), its label (`nav_point.find('text')` text, already
    extracted with `get_text(strip=True)`), and the `src` attribute of its
    `content` element. -/
structure NavPoint where
  playOrder : Option String
  label : String
  src : String

/-- Python `dict` assignment `m[k] = v`: overwrite the value of an
    existing key in place, else append the new pair. -/
def dictSet : List (String × String) → String → String → List (String × String)
  | [], k, v => [(k, v)]
  | (k', v') :: m, k, v =>
    if k' = k then (k, v) :: m else (k', v') :: dictSet m k v

/-- Python `m.get(k)`: the value stored for `k`, if any. -/
def dictGet? (m : List (String × String)) (k : String) : Option String :=
  (m.find? (fun p => p.1 == k)).map Prod.snd

/-- `extract_titles_from_nav`: for each `navPoint` of each navigation
    document, in order, store its label under the key
    `content_src.split('#')[0]` (later entries overwrite earlier ones). -/
def extract_titles_from_nav (navPoints : List NavPoint) : List (String × String) :=
  navPoints.foldl (fun m np => dictSet m (splitHashHead np.src) np.label) []

/-! ## Segmentation driver (`extract_text_from_epub`, lines 39–110) -/

/-- One spine document reaching the processing body: its archive name
    (`epub_item.get_name()`), its intrinsic title (`epub_item.title`,
    possibly absent), and its parsed body markup. -/
structure Frag where
  name : String
  title? : Option String
  body : Node

/-- Line 78: `epub_item.get_name().split('/')[-1].split('#')[0]`. -/
def srcKey (name : String) : String :=
  splitHashHead (afterLastSlash name)

/-- Lines 53–82: the resolved title of one fragment.  Start from the
    intrinsic title (`epub_item.title or "Untitled"`); if `chapter_title`
    is falsy and the navigation map is non-empty, replace it by the
    navigation label for this fragment's source filename when present
    (lines 76–79); finally, if `chapter_title` is truthy, its stripped
    text supersedes everything (lines 81–82). -/
def resolveTitle (navTitles : List (String × String)) (f : Frag) : String :=
  let title := pyOrStr f.title? "Untitled"
  let ct := chapterTitleVar f.body
  let title :=
    if !truthyOpt ct && !navTitles.isEmpty then
      (dictGet? navTitles (srcKey f.name)).getD title
    else title
  match ct with
  | some e => if truthy e then get_text_strip e else title
  | none => title

/-- Line 41: `min_content_length = 100`. -/
def min_content_length : Nat := 100

/-- One emitted chapter file: its sequence number (`file_counter` at
    emission), resolved title and written content. -/
structure Chapter where
  seq : Nat
  title : String
  content : String
deriving DecidableEq

/-- The book-scoped mutable driver state: `file_counter` (line 39), the
    `non_chapter_content` buffer (line 40), and the chapter files written
    so far, in emission order. -/
structure DriverState where
  file_counter : Nat
  non_chapter_content : String
  chapters : List Chapter
deriving DecidableEq

/-- Lines 39–40: counter starts at 1, buffer empty, nothing written. -/
def initState : DriverState := ⟨1, "", []⟩

/-- One spine entry as the loop sees it: `skip` covers a missing item, a
    non-document item (line 50) and an item with empty body content
    (line 55), all of which leave the state untouched; `doc` is a
    document reaching the processing body. -/
inductive SpineItem where
  | skip
  | doc (f : Frag)

/-- Line 84: `soup.get_text(separator=' ').strip()`. -/
def fragContent (f : Frag) : String :=
  pyStrip (get_text_space f.body)

/-- Lines 50–104: process one spine entry.  A document whose extracted
    text is longer than `min_content_length` is emitted as the next
    chapter file and advances the counter; otherwise its text plus a
    blank-line separator is appended to the aggregate buffer. -/
def processItem (nav : List (String × String)) (st : DriverState) : SpineItem → DriverState
  | .skip => st
  | .doc f =>
    let title := resolveTitle nav f
    let content := fragContent f
    if min_content_length < content.length then
      { st with
        chapters := st.chapters ++ [⟨st.file_counter, title, content⟩],
        file_counter := st.file_counter + 1 }
    else
      { st with non_chapter_content := st.non_chapter_content ++ content ++ "\n\n" }

/-- Lines 47–104: the spine loop over the entries after the first
    (already dropped), from the initial state. -/
def processItems (nav : List (String × String)) (items : List SpineItem) : DriverState :=
  items.foldl (processItem nav) initState

/-- Line 47: `book.spine[1:]` — the first spine entry never reaches the
    loop body. -/
def processSpine (nav : List (String × String)) (spine : List SpineItem) : DriverState :=
  processItems nav (spine.drop 1)

/-- Line 107: `if non_chapter_content.strip():` — the aggregate file
    `000_non_chapter_content.txt` is written iff this holds; line 110
    writes the buffer itself, unstripped. -/
def writesAggregate (st : DriverState) : Bool :=
  pyStrip st.non_chapter_content != ""

/-- Whether a spine entry is emitted as a chapter (advances the counter). -/
def isChapterItem : SpineItem → Bool
  | .skip => false
  | .doc f => decide (min_content_length < (fragContent f).length)

/-- Whether a spine entry is folded into the aggregate buffer. -/
def isNonChapterItem : SpineItem → Bool
  | .skip => false
  | .doc f => decide ((fragContent f).length ≤ min_content_length)

/-- The extracted texts of the entries folded into the aggregate buffer,
    in spine order. -/
def nonChapterContents (items : List SpineItem) : List String :=
  items.filterMap fun
    | .skip => none
    | .doc f =>
      if min_content_length < (fragContent f).length then none
      else some (fragContent f)

/-- The `"\n\n"`-terminated concatenation accumulated by the aggregate
    buffer: each text followed by the blank-line separator. -/
def concatSep : List String → String
  | [] => ""
  | s :: l => s ++ "\n\n" ++ concatSep l

/-- Line 110: the aggregate file, when written, receives the buffer
    exactly as accumulated (the `strip` on line 107 only gates the
    write). -/
def aggregateFileContent (st : DriverState) : String :=
  st.non_chapter_content

/-! ## Helper lemmas -/

theorem toList_mk (l : List Char) : (String.mk l).toList = l := rfl

theorem rstripUnderscores_length_le (l : List Char) :
    (rstripUnderscores l).length ≤ l.length := by
  have h := (List.dropWhile_sublist (fun c => c = '_') (l := l.reverse)).length_le
  simp only [rstripUnderscores, List.length_reverse]
  simpa using h

theorem mem_of_mem_rstripUnderscores {c : Char} {l : List Char}
    (h : c ∈ rstripUnderscores l) : c ∈ l := by
  rw [rstripUnderscores, List.mem_reverse] at h
  have := (List.dropWhile_sublist (fun c => c = '_') (l := l.reverse)).subset h
  simpa using this

/-! ## C8 -/

/-- C8: for every title string and maximum length `n` (and any
    alphanumericity predicate standing for Python `str.isalnum`),
    `sanitize_filename` returns a string of length at most `n` whose
    characters are all alphanumeric or underscores. -/
theorem sanitize_filename_safe (alnum : Char → Bool) (title : String) (n : Nat) :
    (sanitize_filename alnum title n).length ≤ n ∧
      ∀ c ∈ (sanitize_filename alnum title n).toList, alnum c = true ∨ c = '_' := by
  have hmem : ∀ c ∈ title.toList.map (fun c => if alnum c then c else '_'),
      alnum c = true ∨ c = '_' := by
    intro c hc
    rcases List.mem_map.1 hc with ⟨a, _, rfl⟩
    by_cases h : alnum a
    · simp [h]
    · simp [h]
  rw [sanitize_filename]
  by_cases h : n < (title.toList.map (fun c => if alnum c then c else '_')).length
  · rw [if_pos h]
    constructor
    · rw [String.length_mk]
      calc (rstripUnderscores ((title.toList.map (fun c => if alnum c then c else '_')).take n)).length
          ≤ ((title.toList.map (fun c => if alnum c then c else '_')).take n).length :=
            rstripUnderscores_length_le _
        _ ≤ n := List.length_take_le n _
    · intro c hc
      rw [toList_mk] at hc
      exact hmem c (List.take_subset n _ (mem_of_mem_rstripUnderscores hc))
  · rw [if_neg h]
    constructor
    · rw [String.length_mk]; omega
    · intro c hc
      rw [toList_mk] at hc
      exact hmem c hc

/-- C8 witness: the safety statement evaluated at a concrete mixed title
    and maximum length. -/
theorem sanitize_filename_safe_witness :
    (sanitize_filename Char.isAlphanum "a-b c*9!" 5).length ≤ 5 ∧
      ∀ c ∈ (sanitize_filename Char.isAlphanum "a-b c*9!" 5).toList,
        Char.isAlphanum c = true ∨ c = '_' :=
  sanitize_filename_safe Char.isAlphanum "a-b c*9!" 5

/-! ## C1 -/

/-- C1 (counterexample): `"***"` consists only of non-alphanumeric
    characters and fits inside the maximum length `100`, yet
    `sanitize_filename` returns `"___"`, not the empty string — trailing
    underscores are stripped only after truncation. -/
theorem sanitize_symbols_not_empty :
    "***".toList.all (fun c => !Char.isAlphanum c) = true ∧
      "***".length ≤ 100 ∧
      sanitize_filename Char.isAlphanum "***" 100 = "___" ∧
      sanitize_filename Char.isAlphanum "***" 100 ≠ "" := by
  refine ⟨by decide, by decide, by decide, by decide⟩

/-- C1 (amended): for a title consisting only of non-alphanumeric
    characters and a maximum length at least as large as the title,
    `sanitize_filename` returns a string of underscores of the same
    length as the title (empty only when the title is). -/
theorem sanitize_symbols_all_underscores (alnum : Char → Bool) (title : String) (n : Nat)
    (hall : ∀ c ∈ title.toList, alnum c = false) (hn : title.length ≤ n) :
    sanitize_filename alnum title n = String.mk (List.replicate title.length '_') := by
  have hsafe : title.toList.map (fun c => if alnum c then c else '_') =
      List.replicate title.length '_' := by
    rw [List.eq_replicate_iff]
    refine ⟨by simp, ?_⟩
    intro b hb
    rcases List.mem_map.1 hb with ⟨a, ha, rfl⟩
    simp [hall a ha]
  rw [sanitize_filename, hsafe, if_neg (by simp [hn, Nat.not_lt])]

/-- C1 witness: the amended statement evaluated at `"***"`, `100`. -/
theorem sanitize_symbols_all_underscores_witness :
    sanitize_filename Char.isAlphanum "***" 100 =
      String.mk (List.replicate "***".length '_') :=
  sanitize_symbols_all_underscores Char.isAlphanum "***" 100 (by decide) (by decide)

/-! ## C2 -/

theorem dictGet?_dictSet (m : List (String × String)) (k v k' : String) :
    dictGet? (dictSet m k v) k' = if k' = k then some v else dictGet? m k' := by
  induction m with
  | nil =>
    by_cases h : k' = k
    · subst h; simp [dictSet, dictGet?]
    · have hb : (k == k') = false := beq_eq_false_iff_ne.2 (Ne.symm h)
      simp [dictSet, dictGet?, hb, h]
  | cons p m ih =>
    obtain ⟨k₀, v₀⟩ := p
    by_cases h0 : k₀ = k
    · subst h0
      by_cases h : k' = k₀
      · subst h; simp [dictSet, dictGet?]
      · have hb : (k₀ == k') = false := beq_eq_false_iff_ne.2 (Ne.symm h)
        simp [dictSet, dictGet?, hb, h]
    · by_cases h : k' = k₀
      · subst h
        simp [dictSet, dictGet?, if_neg h0, Ne.symm h0]
      · have hb : (k₀ == k') = false := beq_eq_false_iff_ne.2 (Ne.symm h)
        simp only [dictSet, if_neg h0, dictGet?, List.find?_cons, hb]
        simpa [dictGet?] using ih

theorem dictGet?_foldl_nav (nps : List NavPoint) :
    ∀ (m : List (String × String)) (k : String),
      dictGet? (nps.foldl (fun m np => dictSet m (splitHashHead np.src) np.label) m) k ≠ none ↔
        (dictGet? m k ≠ none ∨ ∃ np ∈ nps, splitHashHead np.src = k) := by
  induction nps with
  | nil => simp
  | cons np nps ih =>
    intro m k
    rw [List.foldl_cons, ih]
    rw [dictGet?_dictSet]
    by_cases h : k = splitHashHead np.src
    · subst h
      simp
    · simp only [if_neg h, List.mem_cons]
      constructor
      · rintro (hm | ⟨np', h', rfl⟩)
        · exact Or.inl hm
        · exact Or.inr ⟨np', Or.inr h', rfl⟩
      · rintro (hm | ⟨np', (rfl | h'), rfl⟩)
        · exact Or.inl hm
        · exact absurd rfl h
        · exact Or.inr ⟨np', h', rfl⟩

/-- C2 (counterexample): for a navigation entry whose content-source
    reference carries a path prefix (`"text/ch1.xhtml#s1"`), the stored
    key keeps the path (`"text/ch1.xhtml"`), so the driver's lookup by
    bare filename (`srcKey` of the item name, here `"ch1.xhtml"`) misses
    the entry. -/
theorem nav_index_path_counterexample :
    extract_titles_from_nav [⟨some "1", "Intro", "text/ch1.xhtml#s1"⟩] =
        [("text/ch1.xhtml", "Intro")] ∧
      srcKey "text/ch1.xhtml" = "ch1.xhtml" ∧
      dictGet? (extract_titles_from_nav [⟨some "1", "Intro", "text/ch1.xhtml#s1"⟩])
          "ch1.xhtml" = none ∧
      dictGet? (extract_titles_from_nav [⟨some "1", "Intro", "text/ch1.xhtml#s1"⟩])
          "text/ch1.xhtml" = some "Intro" := by
  refine ⟨by decide, by decide, by decide, by decide⟩

/-- C2 (amended): the navigation index has an entry for a key exactly when
    some navigation entry's content-source reference equals it after
    stripping the trailing anchor only — the path prefix is retained, so a
    driver lookup by bare filename succeeds only for references without a
    path prefix. -/
theorem nav_index_keys (nps : List NavPoint) (k : String) :
    dictGet? (extract_titles_from_nav nps) k ≠ none ↔
      ∃ np ∈ nps, splitHashHead np.src = k := by
  rw [extract_titles_from_nav, dictGet?_foldl_nav]
  simp [dictGet?]

/-! ## C4 -/

mutual

/-- BeautifulSoup `find` over a children list returns the first match of
    the flattened document-order element list. -/
theorem findElemList_eq_find? (p : Node → Bool) (par : Node) :
    (ns : List Node) →
      findElemList p ns = ((elemsWithParentList par ns).map Prod.fst).find? p
  | [] => rfl
  | n :: ns => by
    rw [findElemList, elemsWithParentList, List.map_append, List.find?_append,
      ← findElemSelf_eq_find? p par n, ← findElemList_eq_find? p par ns]
    cases findElemSelf p n <;> simp [Option.or]

theorem findElemSelf_eq_find? (p : Node → Bool) (par : Node) :
    (n : Node) →
      findElemSelf p n = ((elemsWithParentSelf par n).map Prod.fst).find? p
  | .text _ => rfl
  | .elem t a cs => by
    rw [findElemSelf, elemsWithParentSelf]
    simp only [List.map_cons, List.find?_cons]
    cases hp : p (Node.elem t a cs)
    · simpa using findElemList_eq_find? p (Node.elem t a cs) cs
    · rfl

end

/-- BeautifulSoup `find` is first-match over the document-order
    descendant list. -/
theorem soup_find_eq_find? (p : Node → Bool) (root : Node) :
    soup_find p root = (descElems root).find? p := by
  cases root with
  | text s => rfl
  | elem t a cs =>
    rw [soup_find, descElems, descElemsWithParent]
    exact findElemList_eq_find? p (Node.elem t a cs) cs

/-- A found element satisfies the match predicate. -/
theorem soup_find_pred {p : Node → Bool} {root e : Node}
    (h : soup_find p root = some e) : p e = true := by
  rw [soup_find_eq_find? p root] at h
  exact List.find?_some h

/-- C4 (counterexample): in a fragment whose body holds an `<h2>` before
    an `<h1>`, the resolver takes the `<h2>` text ("Sub"), not the more
    significant `<h1>` text ("Main") — `find(['h1','h2','h3','h4'])` is
    document-order-first, not significance-first. -/
theorem heading_document_order_counterexample :
    findHeading (Node.elem "[document]" []
        [Node.elem "body" []
          [Node.elem "h2" [] [Node.text "Sub"], Node.elem "h1" [] [Node.text "Main"]]]) =
        some (Node.elem "h2" [] [Node.text "Sub"]) ∧
      resolveTitle [] ⟨"c.xhtml", none,
        Node.elem "[document]" []
          [Node.elem "body" []
            [Node.elem "h2" [] [Node.text "Sub"], Node.elem "h1" [] [Node.text "Main"]]]⟩ =
        "Sub" ∧
      resolveTitle [] ⟨"c.xhtml", none,
        Node.elem "[document]" []
          [Node.elem "body" []
            [Node.elem "h2" [] [Node.text "Sub"], Node.elem "h1" [] [Node.text "Main"]]]⟩ ≠
        "Main" := by
  refine ⟨rfl, rfl, by decide⟩

/-- C4 (amended): the heading probe returns the first element among
    `h1`–`h4` in document order (preorder over the tree), regardless of
    heading significance. -/
theorem findHeading_first_in_document_order (root : Node) :
    findHeading root = (descElems root).find? (matchesTags headingTags) :=
  soup_find_eq_find? (matchesTags headingTags) root

/-! ## C3 -/

/-- A node matching a tag-list predicate is an element, hence truthy. -/
theorem truthy_of_matchesTags {tags : List String} {e : Node}
    (h : matchesTags tags e = true) : truthy e = true := by
  cases e with
  | text s => simp [matchesTags] at h
  | elem t a cs => rfl

/-- C3: title-resolution precedence.  If the heading probe finds an
    element, its stripped text is the resolved title (navigation entry or
    not); if the heading, title-class and emphasis probes all fail, the
    navigation label for the fragment's path-stripped, anchor-stripped
    source filename wins when present, and otherwise the resolved title
    is the intrinsic title when truthy, else `"Untitled"`. -/
theorem title_resolution_precedence (nav : List (String × String)) (f : Frag) :
    (∀ e, findHeading f.body = some e → resolveTitle nav f = get_text_strip e) ∧
      (findHeading f.body = none →
        (descElems f.body).all (fun e => !matchesTags headingTags e) = true) ∧
      (findHeading f.body = none → findTitleClass f.body = none →
        findLikelyEm f.body = none →
        ((∀ lbl, dictGet? nav (srcKey f.name) = some lbl → resolveTitle nav f = lbl) ∧
          (dictGet? nav (srcKey f.name) = none →
            resolveTitle nav f = pyOrStr f.title? "Untitled"))) := by
  refine ⟨?_, ?_, ?_⟩
  · intro e he
    have ht : truthy e = true :=
      truthy_of_matchesTags (soup_find_pred (p := matchesTags headingTags) he)
    have hct : chapterTitleVar f.body = some e := by
      simp [chapterTitleVar, findHeading] at he ⊢
      simp [he, truthyOpt, ht]
    simp [resolveTitle, hct, truthyOpt, ht]
  · intro hnone
    rw [findHeading, soup_find_eq_find?, List.find?_eq_none] at hnone
    rw [List.all_eq_true]
    intro e he
    simpa using hnone e he
  · intro h1 h2 h3
    have hct : chapterTitleVar f.body = none := by
      simp [chapterTitleVar, h1, h2, h3, truthyOpt]
    constructor
    · intro lbl hl
      have hnav : nav.isEmpty = false := by
        cases nav with
        | nil => simp [dictGet?] at hl
        | cons p nav' => rfl
      simp [resolveTitle, hct, truthyOpt, hnav, hl]
    · intro hnone
      cases hempty : nav.isEmpty with
      | true => simp [resolveTitle, hct, truthyOpt, hempty]
      | false => simp [resolveTitle, hct, truthyOpt, hempty, hnone]

/-- C3 witness: the precedence theorem evaluated on concrete fragments —
    a heading beats a navigation entry; the navigation label beats the
    intrinsic title; the intrinsic title, then the placeholder, close the
    cascade. -/
theorem title_resolution_precedence_witness :
    resolveTitle [("a.xhtml", "Nav")]
        ⟨"a.xhtml", some "Intr",
          Node.elem "[document]" [] [Node.elem "h1" [] [Node.text "Head"]]⟩ =
      get_text_strip (Node.elem "h1" [] [Node.text "Head"]) ∧
      (descElems (Node.elem "[document]" []
          [Node.elem "p" [] [Node.text "body text"]])).all
          (fun e => !matchesTags headingTags e) = true ∧
      resolveTitle [("b.xhtml", "NavLabel")]
          ⟨"b.xhtml", some "Intr",
            Node.elem "[document]" [] [Node.elem "p" [] [Node.text "body text"]]⟩ =
        "NavLabel" ∧
      resolveTitle []
          ⟨"b.xhtml", some "Intr",
            Node.elem "[document]" [] [Node.elem "p" [] [Node.text "body text"]]⟩ =
        pyOrStr (some "Intr") "Untitled" ∧
      resolveTitle []
          ⟨"b.xhtml", none,
            Node.elem "[document]" [] [Node.elem "p" [] [Node.text "body text"]]⟩ =
        pyOrStr none "Untitled" :=
  ⟨(title_resolution_precedence [("a.xhtml", "Nav")]
        ⟨"a.xhtml", some "Intr",
          Node.elem "[document]" [] [Node.elem "h1" [] [Node.text "Head"]]⟩).1
      (Node.elem "h1" [] [Node.text "Head"]) rfl,
    (title_resolution_precedence []
        ⟨"b.xhtml", some "Intr",
          Node.elem "[document]" [] [Node.elem "p" [] [Node.text "body text"]]⟩).2.1
      rfl,
    ((title_resolution_precedence [("b.xhtml", "NavLabel")]
          ⟨"b.xhtml", some "Intr",
            Node.elem "[document]" [] [Node.elem "p" [] [Node.text "body text"]]⟩).2.2
        rfl rfl rfl).1 "NavLabel" rfl,
    ((title_resolution_precedence []
          ⟨"b.xhtml", some "Intr",
            Node.elem "[document]" [] [Node.elem "p" [] [Node.text "body text"]]⟩).2.2
        rfl rfl rfl).2 rfl,
    ((title_resolution_precedence []
          ⟨"b.xhtml", none,
            Node.elem "[document]" [] [Node.elem "p" [] [Node.text "body text"]]⟩).2.2
        rfl rfl rfl).2 rfl⟩

/-! ## C5 -/

/-- A document fragment whose body is exactly 100 `'x'` characters. -/
def sampleFrag100 : Frag :=
  ⟨"short.xhtml", none,
    Node.elem "[document]" [] [Node.text (String.mk (List.replicate 100 'x'))]⟩

/-- A document fragment whose body is exactly 101 `'x'` characters. -/
def sampleFrag101 : Frag :=
  ⟨"long.xhtml", none,
    Node.elem "[document]" [] [Node.text (String.mk (List.replicate 101 'x'))]⟩

/-- C5: the classifier boundary is a strict comparison.  A fragment whose
    trimmed text length equals `min_content_length` (100) is folded into
    the aggregate buffer and does not advance the counter; a fragment
    whose length exceeds it is emitted as a chapter with the next
    sequence number. -/
theorem classifier_boundary (nav : List (String × String)) (st : DriverState) (f : Frag) :
    ((fragContent f).length = min_content_length →
      processItem nav st (SpineItem.doc f) =
        { st with
          non_chapter_content := st.non_chapter_content ++ fragContent f ++ "\n\n" }) ∧
      (min_content_length < (fragContent f).length →
        processItem nav st (SpineItem.doc f) =
          { st with
            chapters :=
              st.chapters ++ [⟨st.file_counter, resolveTitle nav f, fragContent f⟩],
            file_counter := st.file_counter + 1 }) := by
  constructor
  · intro h
    have hlt : ¬ min_content_length < (fragContent f).length := by omega
    simp [processItem, hlt]
  · intro h
    simp [processItem, h]

/-- C5 witness: the boundary theorem evaluated at a 100-character
    fragment (aggregated) and a 101-character fragment (emitted as
    chapter 1). -/
theorem classifier_boundary_witness :
    (fragContent sampleFrag100).length = min_content_length ∧
      processItem [] initState (SpineItem.doc sampleFrag100) =
        { initState with
          non_chapter_content :=
            initState.non_chapter_content ++ fragContent sampleFrag100 ++ "\n\n" } ∧
      min_content_length < (fragContent sampleFrag101).length ∧
      processItem [] initState (SpineItem.doc sampleFrag101) =
        { initState with
          chapters :=
            initState.chapters ++
              [⟨initState.file_counter, resolveTitle [] sampleFrag101,
                fragContent sampleFrag101⟩],
          file_counter := initState.file_counter + 1 } :=
  ⟨by decide,
    (classifier_boundary [] initState sampleFrag100).1 (by decide),
    by decide,
    (classifier_boundary [] initState sampleFrag101).2 (by decide)⟩

/-! ## C6 -/

/-- Fold invariant: the counter advances once per emitted chapter, and the
    emitted sequence numbers continue the consecutive run started at the
    incoming counter value. -/
theorem foldl_counter_seq (nav : List (String × String)) :
    ∀ (items : List SpineItem) (st : DriverState),
      (items.foldl (processItem nav) st).file_counter =
          st.file_counter + items.countP isChapterItem ∧
        (items.foldl (processItem nav) st).chapters.map Chapter.seq =
          st.chapters.map Chapter.seq ++
            List.range' st.file_counter (items.countP isChapterItem)
  | [], st => by simp
  | i :: items, st => by
    cases i with
    | skip =>
      have ih := foldl_counter_seq nav items st
      simpa [processItem, isChapterItem, List.countP_cons] using ih
    | doc f =>
      by_cases h : min_content_length < (fragContent f).length
      · have hc : isChapterItem (SpineItem.doc f) = true := by
          simp [isChapterItem, h]
        have ih := foldl_counter_seq nav items
          { st with
            chapters :=
              st.chapters ++ [⟨st.file_counter, resolveTitle nav f, fragContent f⟩],
            file_counter := st.file_counter + 1 }
        simp only [List.foldl_cons, processItem, if_pos h] at *
        refine ⟨by rw [ih.1]; simp [List.countP_cons, hc]; omega, ?_⟩
        rw [ih.2]
        simp only [List.countP_cons, hc, if_pos]
        rw [List.range'_succ, List.map_append]
        simp
      · have hc : isChapterItem (SpineItem.doc f) = false := by
          simp [isChapterItem, h]
        have ih := foldl_counter_seq nav items
          { st with
            non_chapter_content := st.non_chapter_content ++ fragContent f ++ "\n\n" }
        simp only [List.foldl_cons, processItem, if_neg h] at *
        simpa [List.countP_cons, hc] using ih

/-- C6: within one book the emitted chapter files carry the sequence
    numbers 1, 2, 3, … in emission order — consecutive from 1 with no
    gaps — and their number equals the number of fragments classified as
    chapters, however many interleaved fragments were skipped or folded
    into the aggregate. -/
theorem chapter_sequence_numbers (nav : List (String × String)) (items : List SpineItem) :
    (processItems nav items).chapters.map Chapter.seq =
        List.range' 1 ((processItems nav items).chapters.length) ∧
      (processItems nav items).chapters.length = items.countP isChapterItem := by
  have h := (foldl_counter_seq nav items initState).2
  simp only [processItems] at *
  simp only [initState] at h
  simp only [List.map_nil, List.nil_append] at h
  have hlen : (items.foldl (processItem nav) ⟨1, "", []⟩).chapters.length =
      items.countP isChapterItem := by
    have := congrArg List.length h
    simpa using this
  rw [← hlen] at h
  exact ⟨h, hlen⟩

/-! ## C7 and C10 -/

/-- Fold invariant: the aggregate buffer accumulates, in spine order, the
    text of each non-chapter fragment followed by the blank-line
    separator. -/
theorem foldl_non_chapter (nav : List (String × String)) :
    ∀ (items : List SpineItem) (st : DriverState),
      (items.foldl (processItem nav) st).non_chapter_content =
        st.non_chapter_content ++ concatSep (nonChapterContents items)
  | [], st => by simp [nonChapterContents, concatSep]
  | i :: items, st => by
    cases i with
    | skip =>
      have ih := foldl_non_chapter nav items st
      simpa [processItem, nonChapterContents] using ih
    | doc f =>
      by_cases h : min_content_length < (fragContent f).length
      · have ih := foldl_non_chapter nav items
          { st with
            chapters :=
              st.chapters ++ [⟨st.file_counter, resolveTitle nav f, fragContent f⟩],
            file_counter := st.file_counter + 1 }
        simp only [List.foldl_cons, processItem, if_pos h] at *
        simpa [nonChapterContents, h] using ih
      · have ih := foldl_non_chapter nav items
          { st with
            non_chapter_content := st.non_chapter_content ++ fragContent f ++ "\n\n" }
        simp only [List.foldl_cons, processItem, if_neg h] at *
        rw [ih]
        simp [nonChapterContents, h, concatSep, String.append_assoc]

/-- Each aggregated text corresponds to one fragment classified as
    non-chapter. -/
theorem length_nonChapterContents :
    ∀ items : List SpineItem,
      (nonChapterContents items).length = items.countP isNonChapterItem
  | [] => rfl
  | i :: items => by
    cases i with
    | skip =>
      simpa [nonChapterContents, isNonChapterItem, List.countP_cons] using
        length_nonChapterContents items
    | doc f =>
      have ih := length_nonChapterContents items
      simp only [nonChapterContents] at ih
      by_cases h : min_content_length < (fragContent f).length
      · have hnc : isNonChapterItem (SpineItem.doc f) = false := by
          simp [isNonChapterItem, min_content_length] at *
          omega
        simp [nonChapterContents, h, List.countP_cons, hnc, ih]
      · have hnc : isNonChapterItem (SpineItem.doc f) = true := by
          simp [isNonChapterItem, min_content_length] at *
          omega
        simp [nonChapterContents, h, List.countP_cons, hnc, ih]

/-- C7: the aggregate file `000_non_chapter_content.txt` is written iff at
    least one fragment was classified as non-chapter and the accumulated
    buffer is non-empty after stripping whitespace. -/
theorem aggregate_written_iff (nav : List (String × String)) (items : List SpineItem) :
    writesAggregate (processItems nav items) = true ↔
      (0 < items.countP isNonChapterItem ∧
        pyStrip (processItems nav items).non_chapter_content ≠ "") := by
  have hbuf : (processItems nav items).non_chapter_content =
      concatSep (nonChapterContents items) := by
    have := foldl_non_chapter nav items initState
    simpa [processItems, initState] using this
  constructor
  · intro h
    have hne : pyStrip (processItems nav items).non_chapter_content ≠ "" := by
      simpa [writesAggregate] using h
    refine ⟨?_, hne⟩
    rcases Nat.eq_zero_or_pos (items.countP isNonChapterItem) with h0 | h0
    · exfalso
      have hlen : (nonChapterContents items).length = 0 := by
        rw [length_nonChapterContents]; omega
      have hnil : nonChapterContents items = [] := List.length_eq_zero.1 hlen
      apply hne
      rw [hbuf, hnil]
      rfl
    · exact h0
  · rintro ⟨_, hne⟩
    simpa [writesAggregate] using hne

/-- C10: when written, the aggregate file's content is exactly the
    concatenation, in spine order, of each non-chapter fragment's
    stripped extracted text followed by the blank-line separator
    `"\n\n"` — the buffer is written as accumulated, trailing separator
    included, with no final trim. -/
theorem aggregate_file_content (nav : List (String × String)) (items : List SpineItem) :
    aggregateFileContent (processItems nav items) = concatSep (nonChapterContents items) := by
  have := foldl_non_chapter nav items initState
  simpa [aggregateFileContent, processItems, initState] using this

/-! ## C9 -/

/-- C9 (counterexample): an `<em>` with long-enough text whose immediate
    parent is an `<h4>` (a heading tag for the heading probe, line 59) and
    which is not its parent's first content node is rejected —
    `is_likely_title`'s parent set stops at `h3` and omits `h4`. -/
theorem likely_title_h4_counterexample :
    5 < (get_text_strip (Node.elem "em" [] [Node.text "Chapter One"])).length ∧
      Node.tagOf (Node.elem "h4" []
          [Node.text "x ", Node.elem "em" [] [Node.text "Chapter One"]]) = "h4" ∧
      headingTags.contains "h4" = true ∧
      likelyTitleParents.contains "h4" = false ∧
      is_likely_title (Node.elem "em" [] [Node.text "Chapter One"])
        (Node.elem "h4" []
          [Node.text "x ", Node.elem "em" [] [Node.text "Chapter One"]]) = false :=
  ⟨by decide, rfl, by decide, by decide, by decide⟩

/-- C9 (amended): `is_likely_title` accepts an emphasis element exactly
    when its trimmed text length strictly exceeds 5 and either its
    immediate parent's tag is one of `h1`, `h2`, `h3` (not `h4`), `div`,
    `header`, `title`, `nav`, or it is (structurally equal to) the first
    content node of its parent; in particular trimmed length exactly 5 is
    never accepted.  Moreover the driver's scan selects the first
    qualifying emphasis element in document order: every earlier `<em>`
    fails the predicate. -/
theorem likely_title_characterization :
    (∀ em parent, is_likely_title em parent = true ↔
        (5 < (get_text_strip em).length ∧
          (likelyTitleParents.contains parent.tagOf = true ∨
            (parent.childrenOf.head? == some em) = true))) ∧
      ∀ root ep, findLikelyEm root = some ep →
        ep ∈ em_tags root ∧ is_likely_title ep.1 ep.2 = true ∧
          ∃ l₁ l₂, em_tags root = l₁ ++ ep :: l₂ ∧
            ∀ ep' ∈ l₁, is_likely_title ep'.1 ep'.2 = false := by
  constructor
  · intro em parent
    by_cases h5 : 5 < (get_text_strip em).length
    · by_cases hc : likelyTitleParents.contains parent.tagOf
      · simp [is_likely_title, h5, hc]
      · by_cases he : (parent.childrenOf.head? == some em) = true
        · simp [is_likely_title, h5, hc, he]
        · simp [is_likely_title, h5, hc, he]
    · simp [is_likely_title, h5]
  · intro root ep h
    rw [findLikelyEm, List.find?_eq_some] at h
    obtain ⟨hp, l₁, l₂, heq, hall⟩ := h
    refine ⟨?_, hp, l₁, l₂, heq, ?_⟩
    · rw [heq]
      exact List.mem_append_right _ (List.mem_cons_self _ _)
    · intro ep' h'
      have := hall ep' h'
      simpa using this

/-- C9 witness: on a document holding a short `<em>` (rejected) followed
    by a long `<em>` inside a `<div>` (accepted), the scan returns the
    second one, and the first is reported as failing. -/
theorem likely_title_characterization_witness :
    (Node.elem "em" [] [Node.text "Chapter One"],
        Node.elem "div" [] [Node.elem "em" [] [Node.text "Chapter One"]]) ∈
      em_tags (Node.elem "[document]" []
        [Node.elem "p" [] [Node.elem "em" [] [Node.text "abc"], Node.text "tail"],
          Node.elem "div" [] [Node.elem "em" [] [Node.text "Chapter One"]]]) ∧
      is_likely_title (Node.elem "em" [] [Node.text "Chapter One"])
        (Node.elem "div" [] [Node.elem "em" [] [Node.text "Chapter One"]]) = true ∧
      ∃ l₁ l₂,
        em_tags (Node.elem "[document]" []
          [Node.elem "p" [] [Node.elem "em" [] [Node.text "abc"], Node.text "tail"],
            Node.elem "div" [] [Node.elem "em" [] [Node.text "Chapter One"]]]) =
          l₁ ++
            (Node.elem "em" [] [Node.text "Chapter One"],
              Node.elem "div" [] [Node.elem "em" [] [Node.text "Chapter One"]]) :: l₂ ∧
          ∀ ep' ∈ l₁, is_likely_title ep'.1 ep'.2 = false :=
  likely_title_characterization.2
    (Node.elem "[document]" []
      [Node.elem "p" [] [Node.elem "em" [] [Node.text "abc"], Node.text "tail"],
        Node.elem "div" [] [Node.elem "em" [] [Node.text "Chapter One"]]])
    (Node.elem "em" [] [Node.text "Chapter One"],
      Node.elem "div" [] [Node.elem "em" [] [Node.text "Chapter One"]])
    rfl

end EpubConsolidator
